import Mathlib

/-!
Verification of the trpc-logger repository: a shallow embedding of the
logging-pipeline dispatch engine (`loggedProcedure` / `createLoggerMethod`),
the performance monitor, the request middlewares and their composition, and
the sensitive-data masking helper, together with theorems settling the
specification's claims about them.

Side effects are made observable: a sink / transport is identified by a tag
and the dispatch functions return the ordered list of calls they make, so
"invokes exactly these transports" becomes an equation about that list.
JavaScript numbers standing for timestamps, counters and durations are
modelled as `Int`; machine/IEEE subtleties play no role in any claim.
-/

namespace TrpcLogger

/-- The closed severity enumeration `'error' | 'warn' | 'info' | 'debug'`. -/
inductive Level where
  | error
  | warn
  | info
  | debug
deriving DecidableEq, Repr

/-- `level.toUpperCase()` for the four severity strings. -/
def levelUpper : Level → String
  | .error => "ERROR"
  | .warn => "WARN"
  | .info => "INFO"
  | .debug => "DEBUG"

/-- Log metadata (`Record<string, any>`); its contents are opaque to every
routing decision, so a list of string pairs suffices. -/
abbrev Meta := List (String × String)

/-- A sink is an external side-effecting function; we identify each by a tag
and record the calls made to it. -/
abbrev Sink := Nat

/-- `LoggerPipeline` from `src/index.ts`: a named entry with an optional
level, an optional formatter and a transport (sink). -/
structure LoggerPipeline where
  name : String
  level : Option Level
  format : Option (Option String → String → Option Meta → String)
  transport : Sink

/-- `PipelineConfig` from `src/index.ts`. -/
structure PipelineConfig where
  pipelines : List LoggerPipeline
  defaultLevel : Option Level

/-- `const { pipelines, defaultLevel = 'info' } = config` — the destructuring
default used by `loggedProcedure`. -/
def configDefaultLevel (config : PipelineConfig) : Level :=
  config.defaultLevel.getD Level.info

/-- `pipeline.level || defaultLevel`: the entry's effective level. (The JS
`||` is `getD` here because `level` is either a non-empty level string or
absent.) -/
def effectiveLevel (config : PipelineConfig) (pipeline : LoggerPipeline) : Level :=
  pipeline.level.getD (configDefaultLevel config)

/-- JS template-literal interpolation of a `string | undefined` value. -/
def jsShow : Option String → String
  | some s => s
  | none => "undefined"

/-- One call made to a pipeline's transport: the entry whose transport fired
and the arguments `(name, formattedMessage, meta)` it received. -/
structure TransportCall where
  pipeline : LoggerPipeline
  name : Option String
  text : String
  meta : Option Meta

/-- `createLoggerMethod(level)` applied to `(message, meta)` inside
`withLogger(name)` (src/index.ts, `loggedProcedure`): filter the pipelines
whose effective level equals `level`, then for each, in registry order,
format (falling back to `"[LEVEL] [name] message"`) and invoke its
transport.  The returned list is the ordered trace of transport calls. -/
def createLoggerMethod (pipelines : List LoggerPipeline) (defaultLevel : Level)
    (level : Level) (name : Option String) (message : String) (meta : Option Meta) :
    List TransportCall :=
  let levelPipelines := pipelines.filter fun pipeline =>
    decide (pipeline.level.getD defaultLevel = level)
  levelPipelines.map fun pipeline =>
    let formattedMessage :=
      match pipeline.format with
      | some f => f name message meta
      | none => "[" ++ levelUpper level ++ "] [" ++ jsShow name ++ "] " ++ message
    ⟨pipeline, name, formattedMessage, meta⟩

/-- The logger method for `level` bound by `withLogger(name)` under `config`:
`createLoggerMethod` with the destructured pipelines and default level. -/
def loggerMethod (config : PipelineConfig) (level : Level) (name : Option String)
    (message : String) (meta : Option Meta) : List TransportCall :=
  createLoggerMethod config.pipelines (configDefaultLevel config) level name message meta

/-! ## Performance monitor (src/performance.ts) -/

/-- A JS `Error` value as the middlewares and the monitor inspect it:
constructor name, message, optional stack, and the optional `code` property
set on `TRPCError`s. -/
structure JsError where
  name : String
  message : String
  stack : Option String
  code : Option String
deriving DecidableEq, Repr

/-- `NodeJS.MemoryUsage`.  (`extMem` stands for the source's `external`
field.) -/
structure MemoryUsage where
  rss : Int
  heapUsed : Int
  heapTotal : Int
  extMem : Int
  arrayBuffers : Int
deriving DecidableEq, Repr

/-- `metrics.memoryUsage`: a snapshot, plus the `diff` attached by `end`. -/
structure MemSnap where
  base : MemoryUsage
  diff : Option MemoryUsage
deriving DecidableEq, Repr

/-- `PerformanceMetrics` from src/performance.ts; `α` is the type of the
`any`-typed input/output snapshots. -/
structure PerformanceMetrics (α : Type) where
  startTime : Int
  endTime : Option Int
  duration : Option Int
  memoryUsage : Option MemSnap
  procedureName : String
  input : Option α
  output : Option α
  error : Option JsError

/-- `PerformanceConfig` from src/performance.ts. -/
structure PerformanceConfig where
  enabled : Bool
  logSlowQueries : Bool
  slowQueryThreshold : Int
  logMemoryUsage : Bool
  logInputOutput : Bool

/-- One call the monitor makes on its logger: the severity-specific method
invoked and the message passed to it.  (The metadata payload — duration,
input, output, memory, error details — is routed to the sink unchanged and
affects no decision, so it is not recorded here.) -/
structure PLog where
  level : Level
  message : String
deriving DecidableEq, Repr

/-- `PerformanceMonitor.start(procedureName, input?)`.  `now` is the value of
`Date.now()` and `mem` the value of `process.memoryUsage()` at the call. -/
def perfStart {α : Type} (config : PerformanceConfig) (procedureName : String)
    (input : Option α) (now : Int) (mem : MemoryUsage) : PerformanceMetrics α :=
  if !config.enabled then
    { startTime := 0, endTime := none, duration := none, memoryUsage := none,
      procedureName := procedureName, input := none, output := none, error := none }
  else
    { startTime := now, endTime := none, duration := none,
      memoryUsage := if config.logMemoryUsage then some ⟨mem, none⟩ else none,
      procedureName := procedureName,
      input := if config.logInputOutput then input else none,
      output := none, error := none }

/-- `PerformanceMonitor.shouldLogSlowQuery(duration)`. -/
def shouldLogSlowQuery (config : PerformanceConfig) (duration : Int) : Bool :=
  config.logSlowQueries && decide (duration > config.slowQueryThreshold)

/-- `PerformanceMonitor.logPerformance(metrics)`: the single logger call it
makes. -/
def logPerformance {α : Type} (config : PerformanceConfig)
    (metrics : PerformanceMetrics α) : List PLog :=
  match metrics.error with
  | some _ => [⟨Level.error, "Procedure " ++ metrics.procedureName ++ " failed"⟩]
  | none =>
    let logLevel :=
      if shouldLogSlowQuery config (metrics.duration.getD 0) then Level.warn
      else Level.debug
    [⟨logLevel, "Procedure " ++ metrics.procedureName ++ " completed"⟩]

/-- `PerformanceMonitor.end(metrics, output?, error?)`: returns the completed
metrics object and the logger calls made.  `now` and `currentMemory` are the
values of `Date.now()` / `process.memoryUsage()` during the call. -/
def perfEnd {α : Type} (config : PerformanceConfig) (metrics : PerformanceMetrics α)
    (output : Option α) (error : Option JsError) (now : Int)
    (currentMemory : MemoryUsage) : PerformanceMetrics α × List PLog :=
  if !config.enabled then (metrics, [])
  else
    let m1 : PerformanceMetrics α :=
      { metrics with
        endTime := some now,
        duration := some (now - metrics.startTime),
        output := if config.logInputOutput then output else none,
        error := error }
    let m2 : PerformanceMetrics α :=
      if config.logMemoryUsage then
        let memoryDiff : MemoryUsage :=
          { rss := currentMemory.rss - ((m1.memoryUsage.map (·.base.rss)).getD 0),
            heapUsed := currentMemory.heapUsed - ((m1.memoryUsage.map (·.base.heapUsed)).getD 0),
            heapTotal := currentMemory.heapTotal - ((m1.memoryUsage.map (·.base.heapTotal)).getD 0),
            extMem := currentMemory.extMem - ((m1.memoryUsage.map (·.base.extMem)).getD 0),
            arrayBuffers := currentMemory.arrayBuffers - ((m1.memoryUsage.map (·.base.arrayBuffers)).getD 0) }
        { m1 with memoryUsage := some ⟨currentMemory, some memoryDiff⟩ }
      else m1
    (m2, logPerformance config m2)

/-! ## JS values and `maskSensitiveData` (src/middleware.ts) -/

/-- A JavaScript value as far as `maskSensitiveData` and truthiness checks
inspect one. -/
inductive JsonVal where
  | vNull
  | vUndef
  | vBool (b : Bool)
  | vNum (n : Int)
  | vStr (s : String)
  | vArr (items : List JsonVal)
  | vObj (fields : List (String × JsonVal))

/-- JS falsiness (`!data`): `null`, `undefined`, `false`, `0` and `''` are
falsy. -/
def jsFalsy : JsonVal → Bool
  | .vNull => true
  | .vUndef => true
  | .vBool b => !b
  | .vNum n => n == 0
  | .vStr s => s == ""
  | .vArr _ => false
  | .vObj _ => false

/-- `typeof data === 'object'` (true for `null`, arrays and objects). -/
def jsIsObjectType : JsonVal → Bool
  | .vNull => true
  | .vArr _ => true
  | .vObj _ => true
  | _ => false

mutual

/-- `maskSensitiveData(data, sensitiveFields)` from src/middleware.ts:
non-objects (and falsy values) are returned unchanged, arrays are masked
element-wise, and on an object a shallow copy has each top-level key listed
in `sensitiveFields` (`field in masked`) overwritten with `'[MASKED]'`. -/
def maskSensitiveData (data : JsonVal) (sensitiveFields : List String) : JsonVal :=
  if jsFalsy data || !(jsIsObjectType data) then data
  else
    match data with
    | .vArr items => .vArr (maskSensitiveList items sensitiveFields)
    | .vObj fields =>
      .vObj (sensitiveFields.foldl
        (fun masked field =>
          if masked.any (fun kv => kv.1 == field) then
            masked.map (fun kv =>
              if kv.1 == field then (kv.1, JsonVal.vStr "[MASKED]") else kv)
          else masked)
        fields)
    | other => other

/-- `data.map(item => maskSensitiveData(item, sensitiveFields))`. -/
def maskSensitiveList (items : List JsonVal) (sensitiveFields : List String) :
    List JsonVal :=
  match items with
  | [] => []
  | item :: rest =>
    maskSensitiveData item sensitiveFields :: maskSensitiveList rest sensitiveFields

end

/-! ## Request middlewares (src/middleware.ts)

Each factory's middleware is an async interceptor `(opts) => Promise<Result>`.
We model one invocation as a pure function: `opts.next` is a continuation
returning a `CRes` — the downstream outcome together with the ordered list
of logger calls it made — and the middleware returns its own `CRes`.
`CStatus.fuelOut` marks a computation that has not finished within the step
budget of a fuel-indexed run (used for the composition model below); every
middleware simply propagates it. -/

/-- One call on the context logger: severity, message, and — for the request
log of the logging middleware — the masked body it attached.  (Remaining
metadata fields are opaque to every claim and are not recorded.) -/
structure LogEv where
  level : Level
  message : String
  body : Option JsonVal

/-- Outcome of a (possibly partial) run: a value, a thrown error, or
"still running when the fuel ran out". -/
inductive CStatus (α : Type) where
  | ok (v : α)
  | thrown (e : JsError)
  | fuelOut

/-- A run's outcome plus the logger calls it made, in order. -/
structure CRes (α : Type) where
  status : CStatus α
  logs : List LogEv

/-- The request context as the middlewares read it: the optional
`LoggerHandle` injected by `.withLogger()` (its identity is irrelevant, only
its presence — the calls made on it are recorded in `CRes.logs`), and the
optional `userId` / `requestId` strings. -/
structure Ctx where
  logger : Option Unit
  userId : Option String
  requestId : Option String

/-- The middleware options object: context, path/type, input, the `next`
continuation, and `elapsed` — the value of `Date.now() - startTime`
observed when the middleware measures the downstream call. -/
structure COpts (α : Type) where
  ctx : Ctx
  path : Option String
  procType : Option String
  input : JsonVal
  elapsed : Int
  next : Unit → CRes α

/-- JS `a || b` on an optional string (empty string is falsy). -/
def jsOrStr (a : Option String) (b : String) : String :=
  match a with
  | some s => if s == "" then b else s
  | none => b

/-- JS `!!s` for a `string | undefined`. -/
def jsTruthyStr : Option String → Bool
  | some s => !(s == "")
  | none => false

/-- `MiddlewareConfig` (after merging with the factory defaults). -/
structure MiddlewareConfig where
  logRequests : Bool
  logResponses : Bool
  logErrors : Bool
  includeHeaders : Bool
  includeBody : Bool
  maskSensitiveFields : List String
  performanceMonitoring : Bool
  slowQueryThreshold : Int

/-- The factory defaults of `createLoggingMiddleware`. -/
def defaultMiddlewareConfig : MiddlewareConfig :=
  { logRequests := true, logResponses := true, logErrors := true,
    includeHeaders := false, includeBody := true,
    maskSensitiveFields := ["password", "token", "secret", "key"],
    performanceMonitoring := false, slowQueryThreshold := 1000 }

/-- One invocation of the middleware returned by
`createLoggingMiddleware(config)`. -/
def loggingMwRun {α : Type} (config : MiddlewareConfig) (opts : COpts α) : CRes α :=
  match opts.ctx.logger with
  | none => opts.next ()
  | some _ =>
    let requestBody : Option JsonVal :=
      if config.includeBody && !(jsFalsy opts.input) then
        some (maskSensitiveData opts.input config.maskSensitiveFields)
      else none
    let requestLogs : List LogEv :=
      if config.logRequests then [⟨Level.info, "Request started", requestBody⟩] else []
    let n := opts.next ()
    match n.status with
    | .fuelOut => ⟨.fuelOut, requestLogs ++ n.logs⟩
    | .ok v =>
      let responseLogs : List LogEv :=
        if config.logResponses then
          if config.performanceMonitoring && decide (opts.elapsed > config.slowQueryThreshold) then
            [⟨Level.warn, "Slow query detected", none⟩]
          else [⟨Level.info, "Request completed", none⟩]
        else []
      ⟨.ok v, requestLogs ++ n.logs ++ responseLogs⟩
    | .thrown e =>
      let errorLogs : List LogEv :=
        if config.logErrors then [⟨Level.error, "Request failed", none⟩] else []
      ⟨.thrown e, requestLogs ++ n.logs ++ errorLogs⟩

/-- Configuration of `createErrorHandlingMiddleware`. -/
structure ErrorHandlingConfig where
  logAllErrors : Bool
  logValidationErrors : Bool
  logAuthErrors : Bool
  includeStack : Bool

/-- One invocation of the middleware returned by
`createErrorHandlingMiddleware(config)`. -/
def errorHandlingMwRun {α : Type} (config : ErrorHandlingConfig) (opts : COpts α) :
    CRes α :=
  match opts.ctx.logger with
  | none => opts.next ()
  | some _ =>
    let n := opts.next ()
    match n.status with
    | .thrown e =>
      let errorName := e.name
      let shouldLog := config.logAllErrors
      let shouldLog :=
        if errorName == "ZodError" && !config.logValidationErrors then false else shouldLog
      let shouldLog :=
        if (errorName == "TRPCError" && e.code == some "UNAUTHORIZED")
            && !config.logAuthErrors then false
        else shouldLog
      if shouldLog then ⟨.thrown e, n.logs ++ [⟨Level.error, "Procedure error", none⟩]⟩
      else ⟨.thrown e, n.logs⟩
    | _ => n

/-- Configuration of `createRateLimitingMiddleware`. -/
structure RateLimitConfig (α : Type) where
  windowMs : Int
  maxRequests : Int
  keyGenerator : Option (COpts α → String)

/-- One entry of the rate limiter's `requests` map. -/
structure RLEntry where
  count : Int
  resetTime : Int
deriving DecidableEq, Repr

/-- The `requests` Map, insertion-ordered as a JS `Map` is. -/
abbrev RateState := List (String × RLEntry)

/-- `Map.get`. -/
def mapGet (m : RateState) (k : String) : Option RLEntry :=
  (m.find? fun kv => kv.1 == k).map (·.2)

/-- `Map.set`: overwrite in place when the key exists, else append. -/
def mapSet (m : RateState) (k : String) (v : RLEntry) : RateState :=
  if m.any fun kv => kv.1 == k then
    m.map fun kv => if kv.1 == k then (k, v) else kv
  else m ++ [(k, v)]

/-- The error thrown by `throw new Error('Rate limit exceeded')`. -/
def rateLimitError : JsError :=
  { name := "Error", message := "Rate limit exceeded", stack := none, code := none }

/-- One invocation of the middleware returned by
`createRateLimitingMiddleware(config)`: takes and returns the shared
`requests` state; `now` is `Date.now()`. -/
def rateLimitingMwRun {α : Type} (config : RateLimitConfig α) (requests : RateState)
    (opts : COpts α) (now : Int) : CRes α × RateState :=
  match opts.ctx.logger with
  | none => (opts.next (), requests)
  | some _ =>
    let key :=
      match config.keyGenerator with
      | some g => g opts
      | none => jsOrStr opts.ctx.userId (jsOrStr opts.ctx.requestId "anonymous")
    -- Clean up expired entries
    let requests := requests.filter fun kv => !(decide (now > kv.2.resetTime))
    match mapGet requests key with
    | none =>
      -- `!current || now > current.resetTime` → fresh window with count 1
      (opts.next (), mapSet requests key ⟨1, now + config.windowMs⟩)
    | some current =>
      if now > current.resetTime then
        (opts.next (), mapSet requests key ⟨1, now + config.windowMs⟩)
      else
        -- `current.count++` mutates the entry held by the map
        let requests := mapSet requests key ⟨current.count + 1, current.resetTime⟩
        if current.count + 1 > config.maxRequests then
          (⟨.thrown rateLimitError, [⟨Level.warn, "Rate limit exceeded", none⟩]⟩, requests)
        else (opts.next (), requests)

/-- One invocation of the middleware returned by
`createAuthLoggingMiddleware()`. -/
def authLoggingMwRun {α : Type} (opts : COpts α) : CRes α :=
  match opts.ctx.logger with
  | none => opts.next ()
  | some _ =>
    let isAuthenticated := jsTruthyStr opts.ctx.userId
    let authLogs : List LogEv :=
      if isAuthenticated then [⟨Level.debug, "Authenticated request", none⟩]
      else [⟨Level.warn, "Unauthenticated request", none⟩]
    let n := opts.next ()
    ⟨n.status, authLogs ++ n.logs⟩

/-- Configuration of `createPerformanceMiddleware`. -/
structure PerfMiddlewareConfig where
  enabled : Bool
  logSlowQueries : Bool
  slowQueryThreshold : Int
  logMemoryUsage : Bool

/-- One invocation of the middleware returned by
`createPerformanceMiddleware(config)`. -/
def perfMwRun {α : Type} (config : PerfMiddlewareConfig) (opts : COpts α) : CRes α :=
  match opts.ctx.logger with
  | none => opts.next ()
  | some _ =>
    if !config.enabled then opts.next ()
    else
      let n := opts.next ()
      match n.status with
      | .fuelOut => n
      | .ok v =>
        let ev : LogEv :=
          if config.logSlowQueries && decide (opts.elapsed > config.slowQueryThreshold) then
            ⟨Level.warn, "Slow query detected", none⟩
          else ⟨Level.debug, "Procedure completed", none⟩
        ⟨.ok v, n.logs ++ [ev]⟩
      | .thrown e => ⟨.thrown e, n.logs ++ [⟨Level.error, "Procedure failed", none⟩]⟩

/-! ## `combineMiddlewares` (src/middleware.ts)

```
return async (opts) => {
    let currentOpts = opts;
    for (const middleware of middlewares) {
        currentOpts = { ...currentOpts, next: async () => middleware(currentOpts) };
    }
    return currentOpts.next();
};
```

Every `next` closure created in the loop captures the single mutable binding
`currentOpts`, which it reads only when called — after the loop, when its
value is the **last**-built opts object.  The spreads override only `next`,
so that final object has the original opts fields and, as `next`, the
closure from the last iteration: a knot in which invoking `next` re-invokes
the last middleware with the same object.  Closures from earlier iterations
are unreachable.  We model the run with a step budget (`fuel`): each
unfolding of the knot costs one unit, and `CStatus.fuelOut` reports a run
that is still going when the budget is exhausted — a run that diverges
yields `fuelOut` at every fuel. -/

/-- The middlewares that `createComprehensiveMiddleware` feeds to
`combineMiddlewares`, as data so that lists of them can be interpreted.
(The rate limiter is stateful and is exercised standalone instead.) -/
inductive MwSpec where
  | logging (config : MiddlewareConfig)
  | errorHandling (config : ErrorHandlingConfig)
  | authLogging
  | performance (config : PerfMiddlewareConfig)

/-- Interpret one middleware on an opts object. -/
def runMwSpec {α : Type} (mw : MwSpec) (opts : COpts α) : CRes α :=
  match mw with
  | .logging config => loggingMwRun config opts
  | .errorHandling config => errorHandlingMwRun config opts
  | .authLogging => authLoggingMwRun opts
  | .performance config => perfMwRun config opts

/-- What the `next` field of `currentOpts` holds: the original terminal
`next`, or the closure `async () => middleware(currentOpts)` built in the
loop. -/
inductive NextClo where
  | original
  | invoke (mw : MwSpec)

/-- The loop of `combineMiddlewares`: each iteration overwrites `next` with
the closure invoking that middleware, so the fold's result is the closure of
the last iteration (or the original `next` when the list is empty). -/
def buildNextClo (middlewares : List MwSpec) : NextClo :=
  middlewares.foldl (fun _ middleware => NextClo.invoke middleware) NextClo.original

/-- The knot: running `middleware(currentOpts)` where `currentOpts.next` is
the closure that runs `middleware(currentOpts)` again.  Each unfolding costs
one unit of fuel. -/
def runKnot {α : Type} (mw : MwSpec) (base : COpts α) : Nat → CRes α
  | 0 => ⟨.fuelOut, []⟩
  | fuel + 1 => runMwSpec mw { base with next := fun _ => runKnot mw base fuel }

/-- One invocation of the middleware returned by
`combineMiddlewares(...middlewares)` on `opts`, with a step budget. -/
def combineMiddlewaresRun {α : Type} (middlewares : List MwSpec) (opts : COpts α)
    (fuel : Nat) : CRes α :=
  match buildNextClo middlewares with
  | .original => opts.next ()
  | .invoke mwLast => runKnot mwLast opts fuel

/-! ## `loggedProcedure` / `withLogger` (src/index.ts)

`withLogger(name)` builds a fresh `logger` object, calls `base.use(...)` to
obtain a new builder whose interceptor merges that logger into the
downstream context, and returns `loggedProcedure(newBuilder, config)` —
which is `Object.assign(newBuilder, { withLogger })`, an in-place mutation
of `newBuilder` (and of `newBuilder` only).  JS object identity and
mutation are modelled with an explicit heap: objects are numeric ids bound
in association lists, and `fresh` is the next unused id. -/

/-- A `LoggerHandle` object: the call-site name its four methods close
over. -/
structure LoggerObj where
  callSiteName : Option String
deriving DecidableEq, Repr

/-- A procedure-builder object: the ids of the loggers merged by its chain
of context-augmenting `.use` steps so far, and whether a `withLogger`
property has been assigned onto it. -/
structure BuilderObj where
  uses : List Nat
  hasWithLogger : Bool
deriving DecidableEq, Repr

/-- The heap of builder and logger objects. -/
structure Heap where
  builders : List (Nat × BuilderObj)
  loggers : List (Nat × LoggerObj)
  fresh : Nat

/-- Dereference a builder id. -/
def getBuilder (h : Heap) (i : Nat) : Option BuilderObj :=
  (h.builders.find? fun kv => kv.1 == i).map (·.2)

/-- Dereference a logger id. -/
def getLogger (h : Heap) (i : Nat) : Option LoggerObj :=
  (h.loggers.find? fun kv => kv.1 == i).map (·.2)

/-- Allocate the `logger` object built by `withLogger(name)`
(`createLoggerMethod('error'|'warn'|'info'|'debug')` closing over `name`). -/
def allocLogger (h : Heap) (name : Option String) : Heap × Nat :=
  (⟨h.builders, (h.fresh, ⟨name⟩) :: h.loggers, h.fresh + 1⟩, h.fresh)

/-- Modelled from the spec: `base.use(...)` belongs to the external tRPC
`ProcedureBuilder`, which is not part of this repository.  Per the spec
(§4.2, §6), it returns a NEW builder whose "so-far" chain of
context-augmenting steps is the base's chain extended with the step that
merges the given logger into the downstream context, leaving the receiver
unchanged. -/
def builderUse (h : Heap) (baseId : Nat) (loggerId : Nat) : Heap × Nat :=
  let b := (getBuilder h baseId).getD ⟨[], false⟩
  (⟨(h.fresh, ⟨b.uses ++ [loggerId], false⟩) :: h.builders, h.loggers, h.fresh + 1⟩,
    h.fresh)

/-- `Object.assign(target, { withLogger })`: mutates `target` in place and
returns it. -/
def objectAssignWithLogger (h : Heap) (targetId : Nat) : Heap × Nat :=
  (⟨h.builders.map fun kv =>
      if kv.1 == targetId then (kv.1, ⟨kv.2.uses, true⟩) else kv,
    h.loggers, h.fresh⟩, targetId)

/-- The heap effect of `loggedProcedure(base, config)`:
`return Object.assign(base, { withLogger })`. -/
def loggedProcedureRun (h : Heap) (baseId : Nat) : Heap × Nat :=
  objectAssignWithLogger h baseId

/-- The heap effect of calling `withLogger(name)` on the extended builder
whose underlying base builder is `baseId`: returns the final heap, the id of
the builder returned to the caller, and the id of the fresh logger. -/
def withLoggerRun (h : Heap) (baseId : Nat) (name : Option String) :
    Heap × Nat × Nat :=
  let hl := allocLogger h name
  let hb := builderUse hl.1 baseId hl.2
  let hr := loggedProcedureRun hb.1 hb.2
  (hr.1, hr.2, hl.2)

/-! ## Theorems -/

/-- C1: a logger-method call at a severity invokes exactly the transports of
the pipeline entries whose effective level (`entry.level ?? defaultLevel`,
with `defaultLevel` itself defaulting to `'info'`) equals that severity, in
registry order and no others; in particular, with entries
`[{name:"a",level:"info"}, {name:"b",level:"error"}]`, a call at `'error'`
fires only `b`'s sink. -/
theorem dispatch_exact_level_match (config : PipelineConfig) (level : Level)
    (name : Option String) (message : String) (meta : Option Meta) :
    (loggerMethod config level name message meta).map TransportCall.pipeline
        = config.pipelines.filter (fun p => decide (effectiveLevel config p = level))
    ∧ (∀ p : LoggerPipeline,
        (∃ c ∈ loggerMethod config level name message meta, c.pipeline = p)
          ↔ p ∈ config.pipelines ∧ effectiveLevel config p = level)
    ∧ (loggerMethod ⟨[⟨"a", some Level.info, none, 0⟩, ⟨"b", some Level.error, none, 1⟩], none⟩
          Level.error name message meta).map (fun c => c.pipeline.name) = ["b"] := by
  refine ⟨?_, fun p => ?_, ?_⟩
  · simp [loggerMethod, createLoggerMethod, List.map_map, effectiveLevel,
      Function.comp_def]
  · simp [loggerMethod, createLoggerMethod, List.mem_filter, List.mem_map,
      effectiveLevel]
  · rfl

/-- C9: when a pipeline entry has no `format` function, the text handed to
its transport is exactly `"[LEVEL] [name] message"` with the severity
upper-cased and `name` the bound call-site name. -/
theorem fallback_format_exact (config : PipelineConfig) (level : Level)
    (name message : String) (meta : Option Meta) (c : TransportCall)
    (hc : c ∈ loggerMethod config level (some name) message meta)
    (hf : c.pipeline.format = none) :
    c.text = "[" ++ levelUpper level ++ "] [" ++ name ++ "] " ++ message := by
  simp only [loggerMethod, createLoggerMethod, List.mem_map] at hc
  obtain ⟨p, _, rfl⟩ := hc
  simp only at hf
  simp [hf, jsShow]

/-- The concrete pipeline/config/call used to witness `fallback_format_exact`. -/
def consolePipe : LoggerPipeline := ⟨"console", some Level.info, none, 0⟩

def witnessConfig : PipelineConfig := ⟨[consolePipe], none⟩

def witnessCall : TransportCall :=
  ⟨consolePipe, some "getUser", "[INFO] [getUser] hello", none⟩

theorem fallback_format_exact_witness :
    witnessCall ∈ loggerMethod witnessConfig Level.info (some "getUser") "hello" none
    ∧ witnessCall.pipeline.format = none
    ∧ witnessCall.text = "[INFO] [getUser] hello" := by
  have hmem : witnessCall ∈ loggerMethod witnessConfig Level.info (some "getUser") "hello" none := by
    show witnessCall ∈ [witnessCall]
    exact List.mem_singleton.mpr rfl
  refine ⟨hmem, rfl, ?_⟩
  have := fallback_format_exact witnessConfig Level.info "getUser" "hello" none
    witnessCall hmem rfl
  simpa using this

theorem dispatch_exact_level_match_witness :
    (loggerMethod ⟨[⟨"a", some Level.info, none, 0⟩, ⟨"b", some Level.error, none, 1⟩], none⟩
        Level.error (some "n") "m" none).map (fun c => c.pipeline.name) = ["b"] :=
  (dispatch_exact_level_match
    ⟨[⟨"a", some Level.info, none, 0⟩, ⟨"b", some Level.error, none, 1⟩], none⟩
    Level.error (some "n") "m" none).2.2

/-- C5: on an enabled monitor, `end` logs exactly one message; its severity
is `error` whenever an error is passed (regardless of duration), else `warn`
exactly when `logSlowQueries` is set and the duration exceeds
`slowQueryThreshold`, else `debug`. -/
theorem perf_end_severity {α : Type} (config : PerformanceConfig)
    (metrics : PerformanceMetrics α) (output : Option α) (error : Option JsError)
    (now : Int) (currentMemory : MemoryUsage) (he : config.enabled = true) :
    (perfEnd config metrics output error now currentMemory).2.map PLog.level
      = [if error.isSome then Level.error
         else if config.logSlowQueries = true
             ∧ now - metrics.startTime > config.slowQueryThreshold then Level.warn
         else Level.debug] := by
  cases error <;>
    cases hm : config.logMemoryUsage <;>
    by_cases hq : now - metrics.startTime > config.slowQueryThreshold <;>
    cases hs : config.logSlowQueries <;>
    simp [perfEnd, logPerformance, shouldLogSlowQuery, he, hm, hq, hs]

def memZero : MemoryUsage := ⟨0, 0, 0, 0, 0⟩

def perfWitnessConfig : PerformanceConfig :=
  { enabled := true, logSlowQueries := true, slowQueryThreshold := 100,
    logMemoryUsage := false, logInputOutput := false }

def perfWitnessMetrics : PerformanceMetrics Int :=
  perfStart perfWitnessConfig "getUser" none 1000 memZero

theorem perf_end_severity_witness :
    perfWitnessConfig.enabled = true
    ∧ (perfEnd perfWitnessConfig perfWitnessMetrics none none 1200 memZero).2.map PLog.level
        = [if (none : Option JsError).isSome then Level.error
           else if perfWitnessConfig.logSlowQueries = true
               ∧ (1200 : Int) - perfWitnessMetrics.startTime > perfWitnessConfig.slowQueryThreshold
             then Level.warn
           else Level.debug] :=
  ⟨rfl, perf_end_severity perfWitnessConfig perfWitnessMetrics none none 1200 memZero rfl⟩

/-- C6: a disabled monitor's `start` returns the degenerate metrics object
carrying only the procedure name (all measurement fields absent, start time
zeroed), and its `end` makes no logger call at all on any metrics. -/
theorem perf_disabled_noop {α : Type} (config : PerformanceConfig)
    (procedureName : String) (input : Option α) (now : Int) (mem : MemoryUsage)
    (metrics : PerformanceMetrics α) (output : Option α) (error : Option JsError)
    (now2 : Int) (mem2 : MemoryUsage) (hd : config.enabled = false) :
    perfStart config procedureName input now mem
        = { startTime := 0, endTime := none, duration := none, memoryUsage := none,
            procedureName := procedureName, input := none, output := none, error := none }
    ∧ (perfEnd config metrics output error now2 mem2).2 = [] := by
  constructor <;> simp [perfStart, perfEnd, hd]

def perfDisabledConfig : PerformanceConfig :=
  { enabled := false, logSlowQueries := true, slowQueryThreshold := 100,
    logMemoryUsage := false, logInputOutput := false }

theorem perf_disabled_noop_witness :
    perfDisabledConfig.enabled = false
    ∧ perfStart perfDisabledConfig "getUser" (some (3 : Int)) 1000 memZero
        = { startTime := 0, endTime := none, duration := none, memoryUsage := none,
            procedureName := "getUser", input := none, output := none, error := none }
    ∧ (perfEnd perfDisabledConfig (perfStart perfDisabledConfig "getUser" (some (3 : Int)) 1000 memZero)
        (some 7) (some ⟨"Error", "boom", none, none⟩) 1200 memZero).2 = [] := by
  have h := perf_disabled_noop perfDisabledConfig "getUser" (some (3 : Int)) 1000 memZero
    (perfStart perfDisabledConfig "getUser" (some (3 : Int)) 1000 memZero)
    (some 7) (some ⟨"Error", "boom", none, none⟩) 1200 memZero rfl
  exact ⟨rfl, h.1, h.2⟩

/-- C7: with no `LoggerHandle` in context, every one of the five middleware
factories' middlewares makes no logger call, touches no rate-limit state and
classifies no error — it returns exactly the result of `opts.next()`. -/
theorem missing_logger_fail_open {α : Type} (opts : COpts α)
    (hl : opts.ctx.logger = none) (lconf : MiddlewareConfig)
    (econf : ErrorHandlingConfig) (rconf : RateLimitConfig α)
    (pconf : PerfMiddlewareConfig) (requests : RateState) (now : Int) :
    loggingMwRun lconf opts = opts.next ()
    ∧ errorHandlingMwRun econf opts = opts.next ()
    ∧ rateLimitingMwRun rconf requests opts now = (opts.next (), requests)
    ∧ authLoggingMwRun opts = opts.next ()
    ∧ perfMwRun pconf opts = opts.next () := by
  refine ⟨?_, ?_, ?_, ?_, ?_⟩ <;>
    simp [loggingMwRun, errorHandlingMwRun, rateLimitingMwRun, authLoggingMwRun,
      perfMwRun, hl]

def noLoggerOpts : COpts Int :=
  { ctx := ⟨none, some "u1", none⟩, path := some "getUser", procType := some "query",
    input := .vUndef, elapsed := 0, next := fun _ => ⟨.ok 7, []⟩ }

def witnessRateConfig : RateLimitConfig Int := ⟨1000, 2, none⟩

def witnessPerfMwConfig : PerfMiddlewareConfig :=
  { enabled := true, logSlowQueries := true, slowQueryThreshold := 1000,
    logMemoryUsage := false }

def witnessEhConfig : ErrorHandlingConfig :=
  { logAllErrors := true, logValidationErrors := true, logAuthErrors := true,
    includeStack := false }

theorem missing_logger_fail_open_witness :
    noLoggerOpts.ctx.logger = none
    ∧ (loggingMwRun defaultMiddlewareConfig noLoggerOpts = noLoggerOpts.next ()
      ∧ errorHandlingMwRun witnessEhConfig noLoggerOpts = noLoggerOpts.next ()
      ∧ rateLimitingMwRun witnessRateConfig [] noLoggerOpts 0 = (noLoggerOpts.next (), [])
      ∧ authLoggingMwRun noLoggerOpts = noLoggerOpts.next ()
      ∧ perfMwRun witnessPerfMwConfig noLoggerOpts = noLoggerOpts.next ()) :=
  ⟨rfl, missing_logger_fail_open noLoggerOpts rfl defaultMiddlewareConfig
    witnessEhConfig witnessRateConfig witnessPerfMwConfig [] 0⟩

/-- C4: with `maxRequests = 2`, a logger in context and a fixed key, the
first two calls inside a window pass through to `next`, the third call in
the same window logs a warning and throws the rate-limit error (leaving its
count at 3), and the first call after the window's reset time creates a
fresh window with count 1 and passes through. -/
theorem rate_limit_window {α : Type} (opts : COpts α) (k : String)
    (w t1 t2 t3 t4 : Int) (hl : opts.ctx.logger = some ())
    (h2 : ¬t2 > t1 + w) (h3 : ¬t3 > t1 + w) (h4 : t4 > t1 + w) :
    rateLimitingMwRun ⟨w, 2, some fun _ => k⟩ [] opts t1
      = (opts.next (), [(k, ⟨1, t1 + w⟩)])
    ∧ rateLimitingMwRun ⟨w, 2, some fun _ => k⟩ [(k, ⟨1, t1 + w⟩)] opts t2
      = (opts.next (), [(k, ⟨2, t1 + w⟩)])
    ∧ rateLimitingMwRun ⟨w, 2, some fun _ => k⟩ [(k, ⟨2, t1 + w⟩)] opts t3
      = (⟨.thrown rateLimitError, [⟨Level.warn, "Rate limit exceeded", none⟩]⟩,
          [(k, ⟨3, t1 + w⟩)])
    ∧ rateLimitingMwRun ⟨w, 2, some fun _ => k⟩ [(k, ⟨3, t1 + w⟩)] opts t4
      = (opts.next (), [(k, ⟨1, t4 + w⟩)]) := by
  refine ⟨?_, ?_, ?_, ?_⟩ <;>
    simp [rateLimitingMwRun, hl, mapGet, mapSet, h2, h3, h4]

def loggedOpts : COpts Int :=
  { ctx := ⟨some (), some "u1", none⟩, path := some "getUser",
    procType := some "query", input := .vUndef, elapsed := 0,
    next := fun _ => ⟨.ok 7, []⟩ }

theorem rate_limit_window_witness :
    (loggedOpts.ctx.logger = some () ∧ ¬(5 : Int) > 0 + 10 ∧ ¬(7 : Int) > 0 + 10
      ∧ (11 : Int) > 0 + 10)
    ∧ (rateLimitingMwRun ⟨10, 2, some fun _ => "k"⟩ [] loggedOpts 0
        = (loggedOpts.next (), [("k", ⟨1, 0 + 10⟩)])
      ∧ rateLimitingMwRun ⟨10, 2, some fun _ => "k"⟩ [("k", ⟨1, 0 + 10⟩)] loggedOpts 5
        = (loggedOpts.next (), [("k", ⟨2, 0 + 10⟩)])
      ∧ rateLimitingMwRun ⟨10, 2, some fun _ => "k"⟩ [("k", ⟨2, 0 + 10⟩)] loggedOpts 7
        = (⟨.thrown rateLimitError, [⟨Level.warn, "Rate limit exceeded", none⟩]⟩,
            [("k", ⟨3, 0 + 10⟩)])
      ∧ rateLimitingMwRun ⟨10, 2, some fun _ => "k"⟩ [("k", ⟨3, 0 + 10⟩)] loggedOpts 11
        = (loggedOpts.next (), [("k", ⟨1, 11 + 10⟩)])) :=
  ⟨⟨rfl, by decide, by decide, by decide⟩,
    rate_limit_window loggedOpts "k" 10 0 5 7 11 rfl (by decide) (by decide) (by decide)⟩

/-- An opts whose terminal `next` succeeds with `7` and whose context holds
a logger. -/
def combineOkOpts : COpts Int :=
  { ctx := ⟨some (), some "u1", none⟩, path := some "getUser",
    procType := some "query", input := .vUndef, elapsed := 0,
    next := fun _ => ⟨.ok 7, []⟩ }

/-- C2 (refuting the claimed chain): composing the auth-logging middleware
(`mw1`) with the logging middleware (`mw2`), the run never finishes at any
step budget, and its log trace is `fuel` copies of `mw2`'s request log —
`mw2` is re-entered once per budget unit instead of running once, `mw1`
never runs at all, and the terminal `next` (which would return `ok 7`) is
never reached.  This is the closure bug of `combineMiddlewares`: every
`next` captures the mutable `currentOpts`, whose final value makes `next`
re-invoke the last middleware. -/
theorem combine_diverges_on_last (fuel : Nat) :
    combineMiddlewaresRun [MwSpec.authLogging, MwSpec.logging defaultMiddlewareConfig]
        combineOkOpts fuel
      = ⟨.fuelOut, List.replicate fuel ⟨Level.info, "Request started", none⟩⟩ := by
  have key : ∀ n : Nat,
      runKnot (MwSpec.logging defaultMiddlewareConfig) combineOkOpts n
        = ⟨.fuelOut, List.replicate n ⟨Level.info, "Request started", none⟩⟩ := by
    intro n
    induction n with
    | zero => rfl
    | succ m ih =>
      simp only [combineOkOpts, defaultMiddlewareConfig] at ih
      simp [runKnot, runMwSpec, loggingMwRun, combineOkOpts, defaultMiddlewareConfig,
        jsFalsy, ih, List.replicate_succ]
  simpa [combineMiddlewaresRun, buildNextClo] using key fuel

/-- An error-handling configuration that logs every error. -/
def ehLogAll : ErrorHandlingConfig :=
  { logAllErrors := true, logValidationErrors := true, logAuthErrors := true,
    includeStack := false }

/-- An opts whose terminal `next` (the handler) throws `boom` and whose
context holds a logger. -/
def combineThrowOpts : COpts Int :=
  { ctx := ⟨some (), some "u1", none⟩, path := some "getUser",
    procType := some "query", input := .vUndef, elapsed := 0,
    next := fun _ => ⟨.thrown ⟨"Error", "boom", none, none⟩, []⟩ }

/-- C3 (refuting error propagation): composing two error-logging
middlewares over a handler that throws, the run never finishes at any step
budget and makes no log call at all — neither middleware ever observes the
error (the status is never `.thrown`), and the error never propagates to
the caller, because the composed middleware re-invokes the last middleware
instead of ever reaching the terminal `next`. -/
theorem combine_error_never_observed (fuel : Nat) :
    combineMiddlewaresRun [MwSpec.errorHandling ehLogAll, MwSpec.errorHandling ehLogAll]
        combineThrowOpts fuel
      = ⟨.fuelOut, []⟩ := by
  have key : ∀ n : Nat,
      runKnot (MwSpec.errorHandling ehLogAll) combineThrowOpts n
        = ⟨.fuelOut, []⟩ := by
    intro n
    induction n with
    | zero => rfl
    | succ m ih =>
      simp only [combineThrowOpts] at ih
      simp [runKnot, runMwSpec, errorHandlingMwRun, combineThrowOpts, ih]
  simpa [combineMiddlewaresRun, buildNextClo] using key fuel

/-- C8: `withLogger(name)` on a valid heap allocates a fresh `LoggerHandle`
(its id is unbound in the starting heap and bound afterwards), returns a
builder object distinct from the base builder, and leaves the base builder
object exactly as it was — the `Object.assign` mutation lands on the new
builder produced by `base.use(...)`, never on the base. -/
theorem withLogger_functional_rebind (h : Heap) (baseId : Nat) (name : Option String)
    (hbase : baseId < h.fresh)
    (hbuilders : ∀ kv ∈ h.builders, kv.1 < h.fresh)
    (hloggers : ∀ kv ∈ h.loggers, kv.1 < h.fresh) :
    getBuilder (withLoggerRun h baseId name).1 baseId = getBuilder h baseId
    ∧ (withLoggerRun h baseId name).2.1 ≠ baseId
    ∧ getLogger h (withLoggerRun h baseId name).2.2 = none
    ∧ getLogger (withLoggerRun h baseId name).1 (withLoggerRun h baseId name).2.2
        = some ⟨name⟩ := by
  have hmap : h.builders.map
      (fun kv => if kv.1 == h.fresh + 1 then (kv.1, (⟨kv.2.uses, true⟩ : BuilderObj)) else kv)
      = h.builders := by
    have := List.map_congr_left (l := h.builders)
      (g := fun kv : Nat × BuilderObj => kv)
      (f := fun kv : Nat × BuilderObj =>
        if kv.1 == h.fresh + 1 then (kv.1, (⟨kv.2.uses, true⟩ : BuilderObj)) else kv)
      (fun kv hkv => by
        have hlt := hbuilders kv hkv
        have : kv.1 ≠ h.fresh + 1 := by omega
        simp [this])
    simpa using this
  refine ⟨?_, ?_, ?_, ?_⟩
  · simp only [withLoggerRun, allocLogger, builderUse, loggedProcedureRun,
      objectAssignWithLogger, getBuilder]
    simp only [List.map_cons]
    rw [List.find?_cons_of_neg, hmap]
    simp only [if_true, beq_iff_eq]
    omega
  · simp only [withLoggerRun, allocLogger, builderUse, loggedProcedureRun,
      objectAssignWithLogger]
    omega
  · simp only [withLoggerRun, allocLogger, builderUse, loggedProcedureRun,
      objectAssignWithLogger, getLogger]
    rw [Option.map_eq_none', List.find?_eq_none]
    intro kv hkv
    have := hloggers kv hkv
    simp only [beq_iff_eq]
    omega
  · simp only [withLoggerRun, allocLogger, builderUse, loggedProcedureRun,
      objectAssignWithLogger, getLogger]
    rw [List.find?_cons_of_pos] <;> simp

def witnessHeap : Heap := ⟨[(0, ⟨[], true⟩)], [], 1⟩

theorem withLogger_functional_rebind_witness :
    ((0 : Nat) < witnessHeap.fresh
      ∧ (∀ kv ∈ witnessHeap.builders, kv.1 < witnessHeap.fresh)
      ∧ (∀ kv ∈ witnessHeap.loggers, kv.1 < witnessHeap.fresh))
    ∧ (getBuilder (withLoggerRun witnessHeap 0 (some "getUser")).1 0
        = getBuilder witnessHeap 0
      ∧ (withLoggerRun witnessHeap 0 (some "getUser")).2.1 ≠ 0
      ∧ getLogger witnessHeap (withLoggerRun witnessHeap 0 (some "getUser")).2.2 = none
      ∧ getLogger (withLoggerRun witnessHeap 0 (some "getUser")).1
          (withLoggerRun witnessHeap 0 (some "getUser")).2.2 = some ⟨some "getUser"⟩) :=
  ⟨⟨by decide, by decide, by decide⟩,
    withLogger_functional_rebind witnessHeap 0 (some "getUser") (by decide)
      (by decide) (by decide)⟩

/-- The loop `for (const field of sensitiveFields) if (field in masked)
masked[field] = '[MASKED]'` masks exactly the top-level keys listed in
`sensitiveFields`. -/
theorem maskFold_eq_map (sens : List String) (fields : List (String × JsonVal)) :
    sens.foldl
      (fun masked field =>
        if masked.any (fun kv => kv.1 == field) then
          masked.map (fun kv =>
            if kv.1 == field then (kv.1, JsonVal.vStr "[MASKED]") else kv)
        else masked)
      fields
    = fields.map (fun kv =>
        if kv.1 ∈ sens then (kv.1, JsonVal.vStr "[MASKED]") else kv) := by
  induction sens generalizing fields with
  | nil => simp
  | cons f rest ih =>
    simp only [List.foldl_cons]
    rw [ih]
    by_cases hany : fields.any (fun kv => kv.1 == f) = true
    · simp only [hany, if_true, List.map_map]
      apply List.map_congr_left
      intro kv _
      by_cases hkf : kv.1 = f
      · simp [Function.comp_def, hkf]
      · by_cases hkr : kv.1 ∈ rest <;>
          simp [Function.comp_def, hkf, hkr, List.mem_cons]
    · rw [if_neg hany]
      apply List.map_congr_left
      intro kv hkv
      have hkf : kv.1 ≠ f := by
        intro hcontra
        exact hany (List.any_eq_true.mpr ⟨kv, hkv, by simp [hcontra]⟩)
      by_cases hkr : kv.1 ∈ rest <;> simp [hkf, hkr, List.mem_cons]

/-- Object case of `maskSensitiveData` as a top-level-only map. -/
theorem maskSensitiveData_obj (fields : List (String × JsonVal)) (sens : List String) :
    maskSensitiveData (.vObj fields) sens
      = .vObj (fields.map fun kv =>
          if kv.1 ∈ sens then (kv.1, JsonVal.vStr "[MASKED]") else kv) := by
  have h := maskFold_eq_map sens fields
  rw [maskSensitiveData]
  simpa [jsFalsy, jsIsObjectType] using congrArg JsonVal.vObj h

/-- Array case of `maskSensitiveData`. -/
theorem maskSensitiveList_eq_map (items : List JsonVal) (sens : List String) :
    maskSensitiveList items sens = items.map fun item => maskSensitiveData item sens := by
  induction items with
  | nil => simp [maskSensitiveList]
  | cons x xs ih =>
    rw [maskSensitiveList]
    simp [ih]

/-- C10: masking is shallow — on an object exactly the top-level keys named
in `sensitiveFields` are replaced by `'[MASKED]'` (every other top-level
value, sub-objects included, is kept identical, so a sensitive field nested
inside a sub-object stays unmasked, as the concrete final conjunct shows);
arrays are masked element-wise; non-object values are returned unchanged. -/
theorem mask_sensitive_data_shallow :
    (∀ (fields : List (String × JsonVal)) (sens : List String),
        maskSensitiveData (.vObj fields) sens
          = .vObj (fields.map fun kv =>
              if kv.1 ∈ sens then (kv.1, JsonVal.vStr "[MASKED]") else kv))
    ∧ (∀ (items : List JsonVal) (sens : List String),
        maskSensitiveData (.vArr items) sens
          = .vArr (items.map fun item => maskSensitiveData item sens))
    ∧ (∀ (b : Bool) (n : Int) (s : String) (sens : List String),
        maskSensitiveData .vNull sens = .vNull
        ∧ maskSensitiveData .vUndef sens = .vUndef
        ∧ maskSensitiveData (.vBool b) sens = .vBool b
        ∧ maskSensitiveData (.vNum n) sens = .vNum n
        ∧ maskSensitiveData (.vStr s) sens = .vStr s)
    ∧ maskSensitiveData
        (.vObj [("user", .vObj [("password", .vStr "hunter2")])]) ["password"]
        = .vObj [("user", .vObj [("password", .vStr "hunter2")])] := by
  refine ⟨maskSensitiveData_obj, ?_, ?_, ?_⟩
  · intro items sens
    rw [maskSensitiveData]
    simp [jsFalsy, jsIsObjectType, maskSensitiveList_eq_map]
  · intro b n s sens
    refine ⟨?_, ?_, ?_, ?_, ?_⟩ <;> simp [maskSensitiveData, jsFalsy, jsIsObjectType]
  · rw [maskSensitiveData_obj]
    simp

end TrpcLogger
